import Mathlib

/-!
Shallow embedding of the teleslurp repository (Go) for checking its
natural-language specification.

Embedded components:
* the filter engine (`internal/filter`, file `unnamed/part_004`):
  `ShouldProcess` for each filter kind, `ProcessMessage`, `LoadFilters`;
* the durable store (`internal/database/db.go`): the `messages` table with
  its `UNIQUE(channel_id, message_id)` constraint, `SaveMessage`
  (`INSERT OR IGNORE`), `GetActiveFilters` (`ORDER BY priority DESC`);
* identity resolution (`internal/telegram/client.go`, `Client.resolveUser`);
* the paginated crawl (`Client.searchMessages`, `Client.Run` per-channel loop);
* the live monitor handler (`Client.MonitorAndForward`, the
  `OnNewChannelMessage` closure): attribution, protected-content fallback,
  chunked photo download, target selection (`internal/commands/monitor.go`).

Go `int64`/`int` values are modelled as `Int` (no arithmetic here ever nears
the 64-bit bound), byte strings as `String` compared at character level.
-/

namespace Teleslurp

/-! ### Go string helpers (package `strings`, `fmt`) -/

/-- Go `strings.ToLower` (ASCII case folding; the repository only ever compares
ASCII keyword patterns). -/
def goToLower (s : String) : String := String.mk (s.data.map Char.toLower)

/-- ASCII whitespace, as `unicode.IsSpace` classifies it for the characters
this repository handles. -/
def isGoSpace (c : Char) : Bool :=
  c == ' ' || c == '\t' || c == '\n' || c == '\r' || c == '\x0b' || c == '\x0c'

/-- Go `strings.TrimSpace`: drop leading and trailing whitespace. -/
def goTrimSpace (s : String) : String :=
  String.mk (((s.data.dropWhile isGoSpace).reverse.dropWhile isGoSpace).reverse)

/-- Is `needle` a prefix of `hay` (character lists)? -/
def charsStartWith : List Char → List Char → Bool
  | _, [] => true
  | [], _ :: _ => false
  | h :: hs, n :: ns => h == n && charsStartWith hs ns

/-- Does `hay` contain `needle` as a contiguous run (character lists)? -/
def charsContain : List Char → List Char → Bool
  | [], needle => needle.isEmpty
  | h :: hs, needle => charsStartWith (h :: hs) needle || charsContain hs needle

/-- Go `strings.Contains hay needle`. -/
def goContains (hay needle : String) : Bool := charsContain hay.data needle.data

/-- Split a character list on every comma; the empty list yields `[[]]`. -/
def splitCommaChars : List Char → List (List Char)
  | [] => [[]]
  | c :: rest =>
      if c == ',' then [] :: splitCommaChars rest
      else
        match splitCommaChars rest with
        | [] => [[c]]
        | w :: ws => (c :: w) :: ws

/-- Go `strings.Split s ","` : Go splits on every separator occurrence and
yields `[s]` when the separator is absent. -/
def goSplitComma (s : String) : List String :=
  (splitCommaChars s.data).map String.mk

/-- Go `fmt.Sprintf "%d" n` for an `int64`. -/
def goFormatInt (n : Int) : String := toString n

/-! ### Filter engine — `internal/filter` (`unnamed/part_004`) -/

/-- The `filter.MessageFilter` implementations: a closed variant per filter
struct (`KeywordFilter`, `RegexFilter`, `UserFilter`, `ChannelFilter`,
`LengthFilter`, `MediaFilter`).  A compiled `regexp.Regexp` is embedded as
its matching function `String → Bool`. -/
inductive MessageFilter where
  | keyword (keywords : List String) (action : String)
  | regex (matcher : String → Bool) (action : String)
  | user (userIDs : String) (action : String)
  | channel (channelIDs : String) (action : String)
  | length (minLength : Int) (action : String)
  | media (requireMedia : Bool) (action : String)

/-- The method `ShouldProcess(message, channelID, userID) (bool, string)` for each
filter kind, mirroring the loops in `unnamed/part_004`: a match returns
`(true, f.Action)`, a non-match falls through to `(false, "")`. -/
def shouldProcess (f : MessageFilter) (message : String) (channelID userID : Int) :
    Bool × String :=
  match f with
  | .keyword keywords action =>
      if keywords.any (fun k =>
          goContains (goToLower message) (goToLower (goTrimSpace k)))
      then (true, action) else (false, "")
  | .regex matcher action =>
      if matcher message then (true, action) else (false, "")
  | .user userIDs action =>
      if (goSplitComma userIDs).any (fun id => goTrimSpace id == goFormatInt userID)
      then (true, action) else (false, "")
  | .channel channelIDs action =>
      if (goSplitComma channelIDs).any (fun id => goTrimSpace id == goFormatInt channelID)
      then (true, action) else (false, "")
  | .length minLength action =>
      if (message.utf8ByteSize : Int) ≥ minLength then (true, action) else (false, "")
  | .media _ action => (true, action)

/-- Method `FilterManager.ProcessMessage`: walk the loaded filters in order; the
first filter with `action == "ignore" && !shouldProcess` returns
`(false, "ignored")`; the first with `action == "highlight" && shouldProcess`
returns `(true, "highlight")`; otherwise `(true, "forward")`. -/
def processMessage (filters : List MessageFilter) (message : String)
    (channelID userID : Int) : Bool × String :=
  match filters with
  | [] => (true, "forward")
  | f :: rest =>
      let r := shouldProcess f message channelID userID
      if r.2 == "ignore" && !r.1 then (false, "ignored")
      else if r.2 == "highlight" && r.1 then (true, "highlight")
      else processMessage rest message channelID userID

/-! ### Filter rows — `internal/database/db.go` -/

/-- Struct `database.MessageFilter`, one row of the `message_filters` table
(`enabled` carried alongside, as stored by the schema). -/
structure DBFilterRow where
  id : Int
  name : String
  pattern : String
  kind : String
  action : String
  priority : Int
  enabled : Bool
deriving DecidableEq, Repr

/-- Insert a row into a priority-descending list, after every row of equal
or higher priority (stable order for ties). -/
def insertPriorityDesc (f : DBFilterRow) : List DBFilterRow → List DBFilterRow
  | [] => [f]
  | g :: gs =>
      if f.priority > g.priority then f :: g :: gs
      else g :: insertPriorityDesc f gs

/-- Stable sort by priority, descending. -/
def sortPriorityDesc (rows : List DBFilterRow) : List DBFilterRow :=
  rows.foldr insertPriorityDesc []

/-- Method `DB.GetActiveFilters`: `WHERE enabled = 1 ORDER BY priority DESC`
(modelled with a stable sort; the spec calls evaluation order "stable on
ties" and no claim here depends on tie order). -/
def getActiveFilters (rows : List DBFilterRow) : List DBFilterRow :=
  sortPriorityDesc (rows.filter (·.enabled))

/-- Digit run to a natural number. -/
def digitsToNat (l : List Char) : Nat :=
  l.foldl (fun n c => 10 * n + (c.toNat - 48)) 0

/-- Function `parseMinLength` (`fmt.Sscanf(pattern, "%d", &length)`): skip leading
whitespace, read an optional sign and a digit run; when no integer can be
read the variable keeps its zero value. -/
def parseMinLength (pattern : String) : Int :=
  let s := pattern.data.dropWhile (fun c => c == ' ' || c == '\t' || c == '\n' || c == '\r')
  match s with
  | '-' :: rest =>
      let ds := rest.takeWhile Char.isDigit
      if ds.isEmpty then 0 else -(digitsToNat ds : Int)
  | '+' :: rest =>
      let ds := rest.takeWhile Char.isDigit
      if ds.isEmpty then 0 else (digitsToNat ds : Int)
  | _ =>
      let ds := s.takeWhile Char.isDigit
      if ds.isEmpty then 0 else (digitsToNat ds : Int)

/-- One step of `FilterManager.LoadFilters`: build the in-memory filter for
a row.  `compileRegex` embeds `regexp.Compile`; rows whose pattern fails to
compile, and rows of unknown kind, are skipped (the Go `switch` has no
default case and the regex arm `continue`s on error). -/
def loadFilter (compileRegex : String → Option (String → Bool))
    (f : DBFilterRow) : Option MessageFilter :=
  match f.kind with
  | "keyword" => some (.keyword (goSplitComma f.pattern) f.action)
  | "regex" =>
      match compileRegex f.pattern with
      | some m => some (.regex m f.action)
      | none => none
  | "user" => some (.user f.pattern f.action)
  | "channel" => some (.channel f.pattern f.action)
  | "length" => some (.length (parseMinLength f.pattern) f.action)
  | _ => none

/-- Method `FilterManager.LoadFilters`: fetch the enabled rows priority-descending
and convert each to its filter. -/
def loadFilters (compileRegex : String → Option (String → Bool))
    (rows : List DBFilterRow) : List MessageFilter :=
  (getActiveFilters rows).filterMap (loadFilter compileRegex)

/-! Concrete filter rows for the evaluated scenarios. -/

/-- A priority-10 keyword rule `"spam"` with action `ignore`. -/
def ruleIgnoreSpam : DBFilterRow :=
  { id := 1, name := "no-spam", pattern := "spam", kind := "keyword",
    action := "ignore", priority := 10, enabled := true }

/-- A priority-1 keyword rule `"spam"` with action `highlight`. -/
def ruleHighlightSpam : DBFilterRow :=
  { id := 2, name := "hl-spam", pattern := "spam", kind := "keyword",
    action := "highlight", priority := 1, enabled := true }

/-- A priority-5 keyword rule `"spam"` with action `ignore` (spec
scenario 2). -/
def ruleIgnoreSpam5 : DBFilterRow :=
  { id := 3, name := "no-spam-5", pattern := "spam", kind := "keyword",
    action := "ignore", priority := 5, enabled := true }

/-- A regex compiler stub for scenarios that load no regex rows. -/
def noRegex : String → Option (String → Bool) := fun _ => none

/-! ### Durable message store — `internal/database/db.go` -/

/-- One row of the `messages` table, the columns `DB.SaveMessage` writes
(`id`/`created_at` are database-generated and irrelevant to dedup). -/
structure MessageRow where
  channelID : Int
  channelTitle : String
  channelUsername : String
  messageID : Int
  date : String
  message : String
  url : String
deriving DecidableEq, Repr

/-- Does the table already hold a row for this `(channel_id, message_id)`
pair?  This is the conflict test of `UNIQUE(channel_id, message_id)`. -/
def hasPair (table : List MessageRow) (channelID messageID : Int) : Bool :=
  table.any fun r => r.channelID == channelID && r.messageID == messageID

/-- Rows of the table matching a `(channel_id, message_id)` pair. -/
def countPair (table : List MessageRow) (channelID messageID : Int) : Nat :=
  (table.filter fun r => r.channelID == channelID && r.messageID == messageID).length

/-- Method `DB.SaveMessage`: `INSERT OR IGNORE INTO messages ...` under
`UNIQUE(channel_id, message_id)` — a conflicting insert leaves the table
unchanged and reports no error; otherwise the row is appended. -/
def saveMessage (table : List MessageRow) (row : MessageRow) : List MessageRow :=
  if hasPair table row.channelID row.messageID then table else table ++ [row]

/-! ### Identity resolution — `Client.resolveUser` (`client.go`) -/

/-- An entry of `ContactsResolveUsername(...).Users`: either a concrete
`*tg.User` (with ID, access hash and username) or some other `tg.UserClass`
variant, which the loop's type assertion skips. -/
inductive UserClass where
  | user (id : Int) (accessHash : Int) (username : String)
  | other
deriving DecidableEq, Repr

/-- The body of the loop in `resolveUser`: a `*tg.User` whose `Username`
equals the searched handle yields `(ID, AccessHash)`. -/
def resolveMatch (searchUsername : String) (u : UserClass) : Option (Int × Int) :=
  match u with
  | .user id accessHash username =>
      if username == searchUsername then some (id, accessHash) else none
  | .other => none

/-- Method `Client.resolveUser`: with a non-empty username, resolve it and return
the first entry of the response whose username matches exactly, else the
"could not find user" error; with an empty username, return the numeric ID
as its own access hash (the ID-based fallback). -/
def resolveUser (resolvedUsers : List UserClass) (searchUsername : String)
    (searchID : Int) : Except String (Int × Int) :=
  if searchUsername ≠ "" then
    match resolvedUsers.findSome? (resolveMatch searchUsername) with
    | some p => .ok p
    | none => .error ("could not find user with username: " ++ searchUsername)
  else
    .ok (searchID, searchID)

/-! ### Paginated crawl — `Client.searchMessages` and `Client.Run` -/

/-- The pagination-relevant fields of a `MessagesSearchRequest`: the
running `AddOffset` and the `Limit` the code passes. -/
structure SearchRequest where
  addOffset : Nat
  limit : Nat
deriving DecidableEq, Repr

/-- A message entry the crawl keeps (`*tg.Message`): ID, date, text. -/
structure CrawlMsg where
  messageID : Int
  date : Int
  message : String
deriving DecidableEq, Repr

/-- The outcome of one `MessagesSearch` call: an RPC error (or unexpected
response type), or a page of entries.  A page entry that is not a
`*tg.Message` (e.g. `MessageEmpty`) is `none`: it still counts toward the
page length used for the offset bump and the short-page test, but
contributes no collected message. -/
inductive FetchResult where
  | failure (e : String)
  | page (entries : List (Option CrawlMsg))

/-- The literal `Limit: 100` — the fixed page size of `searchMessages`. -/
def searchLimit : Nat := 100

/-- Fold a page's `*tg.Message` entries into the earliest-date tracker
(`firstMessageDate`, zero-valued start modelled as `none`). -/
def updateFirstDate (firstDate : Option Int) (msgs : List CrawlMsg) : Option Int :=
  msgs.foldl
    (fun fd m =>
      match fd with
      | none => some m.date
      | some d => if m.date < d then some m.date else some d)
    firstDate

/-- The pagination loop of `Client.searchMessages`, fuel-indexed: `none`
means the fuel ran out before the loop exited (the Go loop is unbounded).
On an RPC error the Go code returns `nil, firstMessageDate, err` — the
partially collected messages are dropped.  An empty page breaks with the
collected messages; a short page (fewer than `searchLimit` entries) breaks
after collecting; otherwise the offset advances by the page length and the
loop continues.  The issued requests are logged alongside. -/
def searchMessagesGo (fetch : SearchRequest → FetchResult) :
    Nat → Nat → List CrawlMsg → Option Int → List SearchRequest →
    Option (Except String (List CrawlMsg × Option Int) × List SearchRequest)
  | 0, _, _, _, _ => none
  | fuel + 1, offset, acc, firstDate, reqs =>
      let req : SearchRequest := ⟨offset, searchLimit⟩
      match fetch req with
      | .failure e => some (.error e, reqs ++ [req])
      | .page entries =>
          if entries.length == 0 then some (.ok (acc, firstDate), reqs ++ [req])
          else
            let pageMsgs := entries.filterMap id
            let acc2 := acc ++ pageMsgs
            let firstDate2 := updateFirstDate firstDate pageMsgs
            if entries.length < searchLimit then
              some (.ok (acc2, firstDate2), reqs ++ [req])
            else
              searchMessagesGo fetch fuel (offset + entries.length) acc2 firstDate2
                (reqs ++ [req])

/-- Method `Client.searchMessages`: run the loop from offset 0 with nothing
collected. -/
def searchMessages (fetch : SearchRequest → FetchResult) (fuel : Nat) :
    Option (Except String (List CrawlMsg × Option Int) × List SearchRequest) :=
  searchMessagesGo fetch fuel 0 [] none []

/-- The offset the loop would use after one fetch at offset `o` (an error
ends the loop, so the offset stands still). -/
def stepOffset (fetch : SearchRequest → FetchResult) (o : Nat) : Nat :=
  match fetch ⟨o, searchLimit⟩ with
  | .failure _ => o
  | .page entries => o + entries.length

/-- The offset reached after `k` fetches starting from offset `o`. -/
def crawlOffsetFrom (fetch : SearchRequest → FetchResult) (o : Nat) : Nat → Nat
  | 0 => o
  | k + 1 => crawlOffsetFrom fetch (stepOffset fetch o) k

/-- Is the page fetched at offset `o` short (fewer than `searchLimit`
entries)?  A short page is what the claim says ends pagination. -/
def shortPageAt (fetch : SearchRequest → FetchResult) (o : Nat) : Bool :=
  match fetch ⟨o, searchLimit⟩ with
  | .failure _ => false
  | .page entries => entries.length < searchLimit

/-- The per-channel loop of `Client.Run`, restricted to how it accumulates
messages: each channel is crawled with its own fetch function; a channel
whose search returns an error is skipped (`continue`) and the crawl moves
on; a successful channel appends its messages (the `len > 0` guard of the
Go code appends nothing for an empty result either way).  `none` propagates
a fuel exhaustion inside some channel's pagination. -/
def runCrawl (fuel : Nat) : List (SearchRequest → FetchResult) → Option (List CrawlMsg)
  | [] => some []
  | ch :: rest =>
      match searchMessages ch fuel with
      | none => none
      | some (.error _, _) => runCrawl fuel rest
      | some (.ok (msgs, _), _) =>
          match runCrawl fuel rest with
          | none => none
          | some tail => some (if msgs.length > 0 then msgs ++ tail else tail)

/-! ### Live monitor — `Client.MonitorAndForward` handler (`client.go`) -/

/-- The media attached to an inbound message, as the handler's `switch`
distinguishes it: a photo (with the byte size of its largest variant, which
drives the chunked download), a document, or any other media class (the
`default:` arm). -/
inductive MediaClass where
  | photo (size : Nat)
  | document
  | other
deriving DecidableEq, Repr

/-- An inbound `UpdateNewChannelMessage` as the handler reads it:
the peer (a channel ID when `PeerID` is `*tg.PeerChannel`), the sender's
user ID, the message ID, the text and the media. -/
structure InboundMessage where
  fromChannel : Option Int
  fromUser : Int
  messageID : Int
  body : String
  media : Option MediaClass
deriving DecidableEq, Repr

/-- What `ChannelsGetFullChannel` yields for the handler: the channel title
and the `Noforwards` (content protection) flag. -/
structure ChannelInfo where
  title : String
  noforwards : Bool
deriving DecidableEq, Repr

/-- An issued `MessagesSendMessage`/`MessagesSendMedia` call: target peer
and message body. -/
structure SentMessage where
  peer : Int
  body : String
deriving DecidableEq, Repr

/-- The backend calls a handler run issues that the claims speak about:
how many `UploadGetFile` (media download) calls happened, and which
messages were sent. -/
structure HandlerEffects where
  downloads : Nat
  sends : List SentMessage
deriving DecidableEq, Repr

/-- The protection attribution prefix the handler writes for `Noforwards`
sources. -/
def protectionMarker : String := "[Protected Content] Originally posted in: "

/-- The literal `Limit: 524288` — the fixed download chunk size (512 KiB). -/
def chunkSize : Nat := 524288

/-- The chunked-download loop for a photo of `size` bytes: each
`UploadGetFile` call returns the next `chunkSize` bytes (fewer at the end);
a short chunk ends the loop.  Returns the number of download calls. -/
def downloadCalls (size offset : Nat) : Nat :=
  if h : min chunkSize (size - offset) < chunkSize then 1
  else 1 + downloadCalls size (offset + chunkSize)
termination_by size - offset
decreasing_by
  simp only [chunkSize] at *
  omega

/-- The relay part of the `OnNewChannelMessage` handler, after the
monitored-set gate and the channel-info fetch: build the attribution and
send according to the media class.  A protected photo is replaced by a
text-only message with the protection notice and no download happens; an
unprotected photo is downloaded in chunks, re-uploaded and sent with the
text; the document arm of the `switch` only logs and issues nothing; other
media and plain text are sent as text-only. -/
def forwardMessage (targetChannelID : Int) (info : ChannelInfo)
    (msg : InboundMessage) : HandlerEffects :=
  let channelTitle := info.title
  let isProtected := info.noforwards
  let attribution :=
    if isProtected then "\n\n" ++ protectionMarker ++ channelTitle
    else "\n\nForwarded from: " ++ channelTitle
  let messageText := msg.body ++ attribution
  match msg.media with
  | some (.photo size) =>
      if isProtected then
        ⟨0, [⟨targetChannelID,
          messageText ++
            "\n[Photo was in original message but cannot be forwarded due to content protection]"⟩]⟩
      else
        ⟨downloadCalls size 0, [⟨targetChannelID, messageText⟩]⟩
  | some .document => ⟨0, []⟩
  | some .other => ⟨0, [⟨targetChannelID, messageText⟩]⟩
  | none => ⟨0, [⟨targetChannelID, messageText⟩]⟩

/-- The full `OnNewChannelMessage` handler of `MonitorAndForward`: drop
events whose peer is not a channel or whose channel is not monitored; a
failing `ChannelsGetFullChannel` ends the handler with no sends; otherwise
relay via `forwardMessage`. -/
def monitorHandler (channels : List Int) (targetChannelID : Int)
    (getInfo : Int → Option ChannelInfo) (msg : InboundMessage) : HandlerEffects :=
  match msg.fromChannel with
  | none => ⟨0, []⟩
  | some channelID =>
      if channelID ∈ channels then
        match getInfo channelID with
        | none => ⟨0, []⟩
        | some info => forwardMessage targetChannelID info msg
      else ⟨0, []⟩

/-- Function `runMonitor` (`internal/commands/monitor.go`): the run is refused when
no source or no target resolved; otherwise the forwarding target is
`targetIDs[0]` — the first resolved target channel. -/
def runMonitorSelect (sourceIDs targetIDs : List Int) : Option (List Int × Int) :=
  if sourceIDs.isEmpty then none
  else
    match targetIDs with
    | [] => none
    | t :: _ => some (sourceIDs, t)

/-- Modelled from the spec: the monitor entry point `runMonitor` invokes is
the four-argument `MonitorAndForward(ctx, sourceIDs, targetChannelID, db)`,
whose body is not among these sources (the `client.go` present holds an
older three-argument variant with no filter hookup).  Spec §4.5: the
dispatcher "routes matches through FilterEngine and, if accepted,
MediaRelay/text-send".  This definition gates a monitored event through the
repository's own `processMessage` and relays accepted messages exactly as
the handler in `client.go` does. -/
def monitorDispatchFiltered (filters : List MessageFilter) (channels : List Int)
    (targetChannelID : Int) (getInfo : Int → Option ChannelInfo)
    (msg : InboundMessage) : HandlerEffects :=
  match msg.fromChannel with
  | none => ⟨0, []⟩
  | some channelID =>
      if channelID ∈ channels then
        match getInfo channelID with
        | none => ⟨0, []⟩
        | some info =>
            if (processMessage filters msg.body channelID msg.fromUser).1 then
              forwardMessage targetChannelID info msg
            else ⟨0, []⟩
      else ⟨0, []⟩

/-- The dispatcher state: the durable `messages` table plus the messages
sent so far. -/
structure DispatchState where
  table : List MessageRow
  sends : List SentMessage
deriving DecidableEq, Repr

/-- Modelled from the spec: the four-argument `MonitorAndForward` with its
`db` parameter is not among these sources; spec §2 gives the
PersistenceStore "durable dedup of forwarded messages" and Scenario 3
requires the same inbound event delivered twice to leave exactly one
persisted record and at most one forwarded message.  The dispatcher records
a monitored event via the repository's `saveMessage` and relays only events
whose `(channel_id, message_id)` pair was not already stored. -/
def monitorDispatchPersist (channels : List Int) (targetChannelID : Int)
    (getInfo : Int → Option ChannelInfo) (st : DispatchState)
    (msg : InboundMessage) : DispatchState :=
  match msg.fromChannel with
  | none => st
  | some channelID =>
      if channelID ∈ channels then
        match getInfo channelID with
        | none => st
        | some info =>
            if hasPair st.table channelID msg.messageID then st
            else
              let row : MessageRow :=
                ⟨channelID, info.title, "", msg.messageID, "", msg.body, ""⟩
              let eff := forwardMessage targetChannelID info msg
              ⟨saveMessage st.table row, st.sends ++ eff.sends⟩
      else st

/-! ### Concrete inputs used by evaluated scenarios and witnesses -/

/-- A resolver response holding two distinct identities with the same
handle. -/
def twoAlice : List UserClass :=
  [.user 1 11 "alice", .user 2 22 "alice"]

/-- A resolver response whose first entries do not match `"alice"`. -/
def mixedAlice : List UserClass :=
  [.other, .user 5 55 "bob", .user 9 99 "alice"]

/-- A full page: exactly `searchLimit` message entries. -/
def fullPage : List (Option CrawlMsg) :=
  List.replicate searchLimit (some ⟨1, 5, "early"⟩)

/-- A channel that serves a full page at offset 0 and fails on the next
page fetch. -/
def chErr : SearchRequest → FetchResult := fun req =>
  if req.addOffset == 0 then .page fullPage else .failure "rpc error"

/-- A channel that serves one short page. -/
def chOk : SearchRequest → FetchResult := fun req =>
  if req.addOffset == 0 then .page [some ⟨500, 9, "late"⟩] else .page []

/-- Channel info for an unprotected source titled "Src Title", reachable as
channel 100. -/
def srcGetInfo : Int → Option ChannelInfo :=
  fun c => if c == 100 then some ⟨"Src Title", false⟩ else none

/-- Channel info for a protected (`Noforwards`) source titled "Src". -/
def protGetInfo : Int → Option ChannelInfo :=
  fun c => if c == 100 then some ⟨"Src", true⟩ else none

/-- An inbound text message containing "spam", on channel 100. -/
def spamMsg : InboundMessage :=
  ⟨some 100, 7, 42, "buy spam now", none⟩

/-- An inbound text message without "spam", on channel 100. -/
def cleanMsg : InboundMessage :=
  ⟨some 100, 7, 43, "hello there", none⟩

/-- An inbound photo message on channel 100. -/
def photoMsg : InboundMessage :=
  ⟨some 100, 7, 44, "hi", some (.photo 5)⟩

end Teleslurp

namespace Teleslurp

/-! ## Helper lemmas -/

theorem charsStartWith_append (needle post : List Char) :
    charsStartWith (needle ++ post) needle = true := by
  induction needle with
  | nil => simp [charsStartWith]
  | cons c ns ih => simp [charsStartWith, ih]

theorem charsContain_nil_needle (hay : List Char) :
    charsContain hay [] = true := by
  cases hay with
  | nil => rfl
  | cons h hs => simp [charsContain, charsStartWith]

theorem charsContain_self_append (needle post : List Char) :
    charsContain (needle ++ post) needle = true := by
  cases needle with
  | nil => simpa using charsContain_nil_needle post
  | cons n ns =>
      simpa [charsContain] using Or.inl (charsStartWith_append (n :: ns) post)

theorem charsContain_cons (c : Char) (hay needle : List Char)
    (h : charsContain hay needle = true) : charsContain (c :: hay) needle = true := by
  simp [charsContain, h]

theorem charsContain_append_left (pre hay needle : List Char)
    (h : charsContain hay needle = true) :
    charsContain (pre ++ hay) needle = true := by
  induction pre with
  | nil => simpa using h
  | cons c cs ih => simpa using charsContain_cons c (cs ++ hay) needle ih

theorem goData_append (a b : String) : (a ++ b).data = a.data ++ b.data := by
  cases a
  cases b
  rfl

theorem goContains_of_parts (a b c : String) :
    goContains (a ++ b ++ c) b = true := by
  show charsContain ((a ++ b ++ c).data) b.data = true
  rw [goData_append, goData_append, List.append_assoc]
  exact charsContain_append_left a.data (b.data ++ c.data) b.data
    (charsContain_self_append b.data c.data)

theorem forwardMessage_sends_peer (target : Int) (info : ChannelInfo)
    (msg : InboundMessage) :
    ∀ s ∈ (forwardMessage target info msg).sends, s.peer = target := by
  obtain ⟨fc, fu, mid, body, media⟩ := msg
  cases media with
  | none => simp [forwardMessage]
  | some m =>
      cases m with
      | photo size =>
          cases hb : info.noforwards <;> simp [forwardMessage, hb]
      | document => simp [forwardMessage]
      | other => simp [forwardMessage]

theorem forwardMessage_sends_len (target : Int) (info : ChannelInfo)
    (msg : InboundMessage) :
    (forwardMessage target info msg).sends.length ≤ 1 := by
  obtain ⟨fc, fu, mid, body, media⟩ := msg
  cases media with
  | none => simp [forwardMessage]
  | some m =>
      cases m with
      | photo size =>
          cases hb : info.noforwards <;> simp [forwardMessage, hb]
      | document => simp [forwardMessage]
      | other => simp [forwardMessage]

theorem forwardMessage_protected (target : Int) (info : ChannelInfo)
    (msg : InboundMessage) (hprot : info.noforwards = true) :
    (forwardMessage target info msg).downloads = 0 ∧
    ∀ s ∈ (forwardMessage target info msg).sends,
      goContains s.body protectionMarker = true := by
  obtain ⟨fc, fu, mid, body, media⟩ := msg
  have hmid : ∀ x z : String,
      goContains (x ++ ("\n\n" ++ protectionMarker ++ z)) protectionMarker = true := by
    intro x z
    show charsContain _ _ = true
    simp only [goData_append, List.append_assoc]
    exact charsContain_append_left _ _ _
      (charsContain_append_left _ _ _ (charsContain_self_append _ _))
  have hmid2 : ∀ x z w : String,
      goContains (x ++ ("\n\n" ++ protectionMarker ++ z) ++ w) protectionMarker = true := by
    intro x z w
    show charsContain _ _ = true
    simp only [goData_append, List.append_assoc]
    exact charsContain_append_left _ _ _
      (charsContain_append_left _ _ _ (charsContain_self_append _ _))
  cases media with
  | none => simpa [forwardMessage, hprot] using hmid body info.title
  | some m =>
      cases m with
      | photo size => simpa [forwardMessage, hprot] using hmid2 body info.title _
      | document => simp [forwardMessage, hprot]
      | other => simpa [forwardMessage, hprot] using hmid body info.title

theorem countPair_append (t : List MessageRow) (r : MessageRow) (cid mid : Int) :
    countPair (t ++ [r]) cid mid
      = countPair t cid mid
          + (if r.channelID == cid && r.messageID == mid then 1 else 0) := by
  simp only [countPair, List.filter_append, List.length_append]
  split <;> simp_all [List.filter_cons]

theorem countPair_eq_zero (t : List MessageRow) (cid mid : Int)
    (h : hasPair t cid mid = false) : countPair t cid mid = 0 := by
  induction t with
  | nil => rfl
  | cons r rs ih =>
      simp only [hasPair, List.any_cons, Bool.or_eq_false_iff] at h
      simp only [countPair, List.filter_cons, h.1, if_false]
      exact ih h.2

theorem countPair_pos (t : List MessageRow) (cid mid : Int)
    (h : hasPair t cid mid = true) : 1 ≤ countPair t cid mid := by
  induction t with
  | nil => simp [hasPair] at h
  | cons r rs ih =>
      simp only [hasPair, List.any_cons, Bool.or_eq_true] at h
      simp only [countPair, List.filter_cons]
      cases hp : (r.channelID == cid && r.messageID == mid) with
      | true => simp
      | false =>
          rw [hp] at h
          simpa [countPair] using ih (by simpa [hasPair] using h)

theorem saveMessage_pres_le_one (t : List MessageRow) (r : MessageRow) (cid mid : Int)
    (h : countPair t cid mid ≤ 1) : countPair (saveMessage t r) cid mid ≤ 1 := by
  unfold saveMessage
  cases hp : hasPair t r.channelID r.messageID with
  | true => simpa using h
  | false =>
      rw [if_neg (by simp [hp]), countPair_append]
      cases hm : (r.channelID == cid && r.messageID == mid) with
      | false => simpa using h
      | true =>
          have hc : r.channelID = cid ∧ r.messageID = mid := by
            simpa [Bool.and_eq_true] using hm
          have h0 : countPair t cid mid = 0 := by
            rw [← hc.1, ← hc.2]
            exact countPair_eq_zero t _ _ hp
          simp [h0]

theorem foldl_saveMessage_le_one (ops : List MessageRow) (t : List MessageRow)
    (h : ∀ cid mid, countPair t cid mid ≤ 1) :
    ∀ cid mid, countPair (ops.foldl saveMessage t) cid mid ≤ 1 := by
  induction ops generalizing t with
  | nil => simpa using h
  | cons r rs ih =>
      exact ih (saveMessage t r)
        (fun cid mid => saveMessage_pres_le_one t r cid mid (h cid mid))

theorem hasPair_saveMessage_self (t : List MessageRow) (r : MessageRow) :
    hasPair (saveMessage t r) r.channelID r.messageID = true := by
  unfold saveMessage
  cases hp : hasPair t r.channelID r.messageID with
  | true => simpa using hp
  | false => simp [hasPair]

theorem saveMessage_idem (t : List MessageRow) (r : MessageRow) :
    saveMessage (saveMessage t r) r = saveMessage t r := by
  have h := hasPair_saveMessage_self t r
  unfold saveMessage
  rw [if_pos]
  rw [saveMessage] at h
  exact h

theorem countPair_saveMessage_self (t : List MessageRow) (r : MessageRow)
    (h : countPair t r.channelID r.messageID ≤ 1) :
    countPair (saveMessage t r) r.channelID r.messageID = 1 := by
  unfold saveMessage
  cases hp : hasPair t r.channelID r.messageID with
  | true =>
      have h1 := countPair_pos t r.channelID r.messageID hp
      have h2 : (if (true = true) then t else t ++ [r]) = t := by simp
      rw [h2]
      omega
  | false =>
      rw [if_neg (by simp [hp]), countPair_append]
      simp [countPair_eq_zero t _ _ hp]

theorem monitorHandler_sends_peer (channels : List Int) (target : Int)
    (getInfo : Int → Option ChannelInfo) (msg : InboundMessage) :
    ∀ s ∈ (monitorHandler channels target getInfo msg).sends, s.peer = target := by
  unfold monitorHandler
  cases msg.fromChannel with
  | none => simp
  | some channelID =>
      by_cases hmem : channelID ∈ channels
      · cases hi : getInfo channelID with
        | none => simp [hmem, hi]
        | some info => simpa [hmem, hi] using forwardMessage_sends_peer target info msg
      · simp [hmem]

/-! ## Claim theorems -/

/-- Claim C9: evaluating a message against an empty rule set always returns
"forward", for every message body, channel ID, and user ID. -/
theorem processMessage_empty_forward (message : String) (channelID userID : Int) :
    processMessage [] message channelID userID = (true, "forward") := rfl

/-- Claim C1 (failing-input evaluation): with the enabled rules
priority-10 keyword "spam" action ignore and priority-1 keyword "spam"
action highlight, loaded priority-descending, the message "spam" evaluates
to `(true, "highlight")`, and with the ignore rule alone it evaluates to
`(true, "forward")` — never to `(false, "ignored")`: the ignore
short-circuit `action == "ignore" && !shouldProcess` cannot fire, because a
matching filter returns `shouldProcess = true` and a non-matching one
returns an empty action. -/
theorem processMessage_ignore_branch_unreachable :
    processMessage (loadFilters noRegex [ruleIgnoreSpam, ruleHighlightSpam]) "spam" 100 7
      = (true, "highlight") ∧
    processMessage (loadFilters noRegex [ruleIgnoreSpam]) "spam" 100 7
      = (true, "forward") := by
  exact ⟨rfl, rfl⟩

/-- Claim C2 (failing-input evaluation): with the enabled rule keyword
"spam", action ignore, priority 5 (spec scenario 2), an inbound message
containing "spam" on monitored channel 100 is still forwarded to target
200, because `processMessage` never returns ignored; a message without
"spam" is forwarded with the attribution "Forwarded from: Src Title". -/
theorem monitor_ignore_rule_without_effect :
    (monitorDispatchFiltered (loadFilters noRegex [ruleIgnoreSpam5]) [100] 200
        srcGetInfo spamMsg).sends
      = [⟨200, "buy spam now\n\nForwarded from: Src Title"⟩] ∧
    (monitorDispatchFiltered (loadFilters noRegex [ruleIgnoreSpam5]) [100] 200
        srcGetInfo cleanMsg).sends
      = [⟨200, "hello there\n\nForwarded from: Src Title"⟩] := by
  exact ⟨rfl, rfl⟩

/-- Claim C7: relaying a message from a source with protection enabled
issues no media download call, and every outgoing message body contains the
protection marker, for every inbound message with media regardless of media
type (the protected document arm issues nothing at all, so the body clause
holds vacuously there). -/
theorem monitorHandler_protected_no_download (channels : List Int)
    (target : Int) (getInfo : Int → Option ChannelInfo) (msg : InboundMessage)
    (channelID : Int) (info : ChannelInfo) (media : MediaClass)
    (hch : msg.fromChannel = some channelID) (hmem : channelID ∈ channels)
    (hinfo : getInfo channelID = some info) (hprot : info.noforwards = true)
    (_hmedia : msg.media = some media) :
    (monitorHandler channels target getInfo msg).downloads = 0 ∧
    ∀ s ∈ (monitorHandler channels target getInfo msg).sends,
      goContains s.body protectionMarker = true := by
  have h := forwardMessage_protected target info msg hprot
  unfold monitorHandler
  rw [hch]
  simp only [hmem, if_true, hinfo]
  exact h

/-- Witness for C7 at a concrete protected photo message. -/
theorem monitorHandler_protected_no_download_witness :
    (monitorHandler [100] 200 protGetInfo photoMsg).downloads = 0 ∧
    ∀ s ∈ (monitorHandler [100] 200 protGetInfo photoMsg).sends,
      goContains s.body protectionMarker = true :=
  monitorHandler_protected_no_download [100] 200 protGetInfo photoMsg 100
    ⟨"Src", true⟩ (.photo 5) rfl (by decide) rfl rfl rfl

/-- Claim C10: when the monitor starts with at least one resolved target,
the forwarding target is the first resolved target channel, and every
message the handler sends goes to that first target — later targets never
receive anything. -/
theorem monitor_forwards_only_first_target (sourceIDs targetIDs srcs : List Int)
    (t : Int) (getInfo : Int → Option ChannelInfo) (msg : InboundMessage)
    (hsel : runMonitorSelect sourceIDs targetIDs = some (srcs, t)) :
    targetIDs.head? = some t ∧
    ∀ s ∈ (monitorHandler srcs t getInfo msg).sends, s.peer = t := by
  unfold runMonitorSelect at hsel
  by_cases hs : sourceIDs.isEmpty
  · simp [hs] at hsel
  · cases targetIDs with
    | nil => simp [hs] at hsel
    | cons t0 rest =>
        simp [hs] at hsel
        exact ⟨by simp [hsel.2], monitorHandler_sends_peer srcs t getInfo msg⟩

/-- Witness for C10: two resolved targets, a monitored text message. -/
theorem monitor_forwards_only_first_target_witness :
    ([200, 300] : List Int).head? = some 200 ∧
    ∀ s ∈ (monitorHandler [100] 200 srcGetInfo cleanMsg).sends, s.peer = 200 :=
  monitor_forwards_only_first_target [100] [200, 300] [100] 200 srcGetInfo
    cleanMsg rfl

/-- Claim C4: after any sequence of SaveMessage calls starting from a fresh
table, at most one stored record exists per (channelID, messageID) pair;
SaveMessage is idempotent; and inserting the same pair twice yields exactly
one stored record. -/
theorem saveMessage_idempotent_dedup (ops : List MessageRow) (t : List MessageRow)
    (r : MessageRow) (cid mid : Int) :
    countPair (ops.foldl saveMessage []) cid mid ≤ 1 ∧
    saveMessage (saveMessage t r) r = saveMessage t r ∧
    countPair (saveMessage (saveMessage (ops.foldl saveMessage []) r) r)
      r.channelID r.messageID = 1 := by
  have base : ∀ cid mid, countPair ([] : List MessageRow) cid mid ≤ 1 := by
    intro _ _
    simp [countPair]
  have inv := foldl_saveMessage_le_one ops [] base
  refine ⟨inv cid mid, saveMessage_idem t r, ?_⟩
  rw [saveMessage_idem]
  exact countPair_saveMessage_self _ r (inv _ _)

/-- Claim C3 (spec-modelled dispatcher): delivering the same inbound event
(same channel ID and message ID) twice to the monitor dispatcher, starting
from an empty store, leaves exactly one persisted record for the pair and
at most one forwarded message. -/
theorem monitorDispatchPersist_dedup (channels : List Int) (target : Int)
    (getInfo : Int → Option ChannelInfo) (msg : InboundMessage) (channelID : Int)
    (info : ChannelInfo) (hch : msg.fromChannel = some channelID)
    (hmem : channelID ∈ channels) (hinfo : getInfo channelID = some info) :
    countPair (monitorDispatchPersist channels target getInfo
        (monitorDispatchPersist channels target getInfo ⟨[], []⟩ msg) msg).table
        channelID msg.messageID = 1 ∧
    (monitorDispatchPersist channels target getInfo
        (monitorDispatchPersist channels target getInfo ⟨[], []⟩ msg) msg).sends.length
      ≤ 1 := by
  have h1 : monitorDispatchPersist channels target getInfo ⟨[], []⟩ msg
      = ⟨[⟨channelID, info.title, "", msg.messageID, "", msg.body, ""⟩],
          (forwardMessage target info msg).sends⟩ := by
    unfold monitorDispatchPersist
    rw [hch]
    simp [hmem, hinfo, hasPair, saveMessage]
  rw [h1]
  have h2 : monitorDispatchPersist channels target getInfo
      ⟨[⟨channelID, info.title, "", msg.messageID, "", msg.body, ""⟩],
        (forwardMessage target info msg).sends⟩ msg
      = ⟨[⟨channelID, info.title, "", msg.messageID, "", msg.body, ""⟩],
          (forwardMessage target info msg).sends⟩ := by
    unfold monitorDispatchPersist
    rw [hch]
    simp [hmem, hinfo, hasPair]
  rw [h2]
  constructor
  · simp [countPair]
  · exact forwardMessage_sends_len target info msg

/-- Witness for C3 at a concrete monitored text event. -/
theorem monitorDispatchPersist_dedup_witness :
    countPair (monitorDispatchPersist [100] 200 srcGetInfo
        (monitorDispatchPersist [100] 200 srcGetInfo ⟨[], []⟩ cleanMsg) cleanMsg).table
        100 cleanMsg.messageID = 1 ∧
    (monitorDispatchPersist [100] 200 srcGetInfo
        (monitorDispatchPersist [100] 200 srcGetInfo ⟨[], []⟩ cleanMsg) cleanMsg).sends.length
      ≤ 1 :=
  monitorDispatchPersist_dedup [100] 200 srcGetInfo cleanMsg 100
    ⟨"Src Title", false⟩ rfl (by decide) rfl

/-- Counterexample for C5: a resolver response holding two distinct
identities that both match the handle "alice"; `resolveUser` returns the
first of them, not an error. -/
theorem resolveUser_silently_picks_first :
    ((twoAlice.filter fun u => (resolveMatch "alice" u).isSome).length = 2) ∧
    resolveUser twoAlice "alice" 0 = .ok (1, 11) :=
  ⟨rfl, rfl⟩

/-- Claim C5 as amended: `resolveUser` returns the first response entry
whose username equals the searched handle, for every response in which the
entries before it do not match; no ambiguity detection is performed. -/
theorem resolveUser_first_match (pre rest : List UserClass) (id accessHash : Int)
    (uname : String) (searchID : Int) (h0 : ¬ uname = "")
    (hpre : ∀ u ∈ pre, resolveMatch uname u = none) :
    resolveUser (pre ++ UserClass.user id accessHash uname :: rest) uname searchID
      = .ok (id, accessHash) := by
  unfold resolveUser
  rw [if_pos h0]
  have hfind : (pre ++ UserClass.user id accessHash uname :: rest).findSome?
      (resolveMatch uname) = some (id, accessHash) := by
    induction pre with
    | nil => simp [List.findSome?_cons, resolveMatch]
    | cons u us ih =>
        have hu := hpre u (by simp)
        rw [List.cons_append, List.findSome?_cons, hu]
        exact ih (fun v hv => hpre v (by simp [hv]))
  rw [hfind]

/-- Witness for C5 (amended) at a concrete response whose third entry is
the first match. -/
theorem resolveUser_first_match_witness :
    resolveUser ([UserClass.other, UserClass.user 5 55 "bob"]
        ++ UserClass.user 9 99 "alice" :: []) "alice" 0 = .ok (9, 99) :=
  resolveUser_first_match [UserClass.other, UserClass.user 5 55 "bob"] [] 9 99
    "alice" 0 (by decide) (by decide)

theorem reqs_push (reqs : List SearchRequest) (offset : Nat)
    (h : ∀ q ∈ reqs, q.limit = searchLimit) :
    ∀ q ∈ reqs ++ [⟨offset, searchLimit⟩], q.limit = searchLimit := by
  intro q hq
  rcases List.mem_append.mp hq with h1 | h1
  · exact h q h1
  · simp at h1
    subst h1
    rfl

theorem go_reqs_limit (fetch : SearchRequest → FetchResult) :
    ∀ (fuel offset : Nat) (acc : List CrawlMsg) (fd : Option Int)
      (reqs : List SearchRequest),
    (∀ q ∈ reqs, q.limit = searchLimit) →
    ∀ res reqs2, searchMessagesGo fetch fuel offset acc fd reqs = some (res, reqs2) →
    ∀ q ∈ reqs2, q.limit = searchLimit := by
  intro fuel
  induction fuel with
  | zero =>
      intro offset acc fd reqs hreqs res reqs2 h
      simp [searchMessagesGo] at h
  | succ n ih =>
      intro offset acc fd reqs hreqs res reqs2 h
      rw [searchMessagesGo] at h
      cases hf : fetch ⟨offset, searchLimit⟩ with
      | failure e =>
          rw [hf] at h
          dsimp only at h
          simp only [Option.some.injEq, Prod.mk.injEq] at h
          rw [← h.2]
          exact reqs_push reqs offset hreqs
      | page entries =>
          rw [hf] at h
          dsimp only at h
          by_cases h0 : (entries.length == 0) = true
          · rw [if_pos h0] at h
            simp only [Option.some.injEq, Prod.mk.injEq] at h
            rw [← h.2]
            exact reqs_push reqs offset hreqs
          · rw [if_neg h0] at h
            by_cases hlt : entries.length < searchLimit
            · rw [if_pos hlt] at h
              simp only [Option.some.injEq, Prod.mk.injEq] at h
              rw [← h.2]
              exact reqs_push reqs offset hreqs
            · rw [if_neg hlt] at h
              exact ih _ _ _ _ (reqs_push reqs offset hreqs) res reqs2 h

theorem go_short_ends (fetch : SearchRequest → FetchResult) (fuel offset : Nat)
    (acc : List CrawlMsg) (fd : Option Int) (reqs : List SearchRequest)
    (entries : List (Option CrawlMsg))
    (hf : fetch ⟨offset, searchLimit⟩ = .page entries)
    (hshort : entries.length < searchLimit) :
    ∃ out, searchMessagesGo fetch (fuel + 1) offset acc fd reqs = some out := by
  rw [searchMessagesGo, hf]
  dsimp only
  by_cases h0 : (entries.length == 0) = true
  · rw [if_pos h0]
    exact ⟨_, rfl⟩
  · rw [if_neg h0, if_pos hshort]
    exact ⟨_, rfl⟩

theorem go_full_continues (fetch : SearchRequest → FetchResult) (fuel offset : Nat)
    (acc : List CrawlMsg) (fd : Option Int) (reqs : List SearchRequest)
    (entries : List (Option CrawlMsg))
    (hf : fetch ⟨offset, searchLimit⟩ = .page entries)
    (hge : searchLimit ≤ entries.length) :
    searchMessagesGo fetch (fuel + 1) offset acc fd reqs
      = searchMessagesGo fetch fuel (offset + entries.length)
          (acc ++ entries.filterMap id) (updateFirstDate fd (entries.filterMap id))
          (reqs ++ [⟨offset, searchLimit⟩]) := by
  have h0 : ¬((entries.length == 0) = true) := by
    simp only [beq_iff_eq]
    have : 0 < searchLimit := by decide
    omega
  have hlt : ¬ entries.length < searchLimit := not_lt.mpr hge
  rw [searchMessagesGo, hf]
  dsimp only
  rw [if_neg h0, if_neg hlt]

theorem go_term (fetch : SearchRequest → FetchResult) :
    ∀ (k offset : Nat) (acc : List CrawlMsg) (fd : Option Int)
      (reqs : List SearchRequest),
    shortPageAt fetch (crawlOffsetFrom fetch offset k) = true →
    ∃ out, searchMessagesGo fetch (k + 1) offset acc fd reqs = some out := by
  intro k
  induction k with
  | zero =>
      intro offset acc fd reqs h
      rw [crawlOffsetFrom] at h
      unfold shortPageAt at h
      cases hf : fetch ⟨offset, searchLimit⟩ with
      | failure e =>
          rw [hf] at h
          simp at h
      | page entries =>
          rw [hf] at h
          exact go_short_ends fetch 0 offset acc fd reqs entries hf
            (of_decide_eq_true h)
  | succ n ih =>
      intro offset acc fd reqs h
      rw [crawlOffsetFrom] at h
      cases hf : fetch ⟨offset, searchLimit⟩ with
      | failure e =>
          refine ⟨(.error e, reqs ++ [⟨offset, searchLimit⟩]), ?_⟩
          rw [searchMessagesGo, hf]
      | page entries =>
          by_cases hlt : entries.length < searchLimit
          · exact go_short_ends fetch (n + 1) offset acc fd reqs entries hf hlt
          · have hstep : stepOffset fetch offset = offset + entries.length := by
              simp [stepOffset, hf]
            rw [go_full_continues fetch (n + 1) offset acc fd reqs entries hf
              (not_lt.mp hlt)]
            refine ih (offset + entries.length) _ _ _ ?_
            rw [← hstep]
            exact h

/-- Claim C6: the pagination loop of `searchMessages` issues every request
with the fixed limit 100; a fetched page with fewer than 100 entries
(including the empty page) always ends pagination, a page with at least 100
entries never does (the loop advances the offset by the page length and
continues); and whenever some page along the offset chain is eventually
short, the crawl of the channel terminates. -/
theorem searchMessages_pagination :
    (∀ (fetch : SearchRequest → FetchResult) (fuel : Nat) res reqs,
        searchMessages fetch fuel = some (res, reqs) →
        ∀ q ∈ reqs, q.limit = searchLimit) ∧
    (∀ (fetch : SearchRequest → FetchResult) (fuel offset : Nat)
        (acc : List CrawlMsg) (fd : Option Int) (reqs : List SearchRequest)
        (entries : List (Option CrawlMsg)),
        fetch ⟨offset, searchLimit⟩ = .page entries →
        entries.length < searchLimit →
        ∃ out, searchMessagesGo fetch (fuel + 1) offset acc fd reqs = some out) ∧
    (∀ (fetch : SearchRequest → FetchResult) (fuel offset : Nat)
        (acc : List CrawlMsg) (fd : Option Int) (reqs : List SearchRequest)
        (entries : List (Option CrawlMsg)),
        fetch ⟨offset, searchLimit⟩ = .page entries →
        searchLimit ≤ entries.length →
        searchMessagesGo fetch (fuel + 1) offset acc fd reqs
          = searchMessagesGo fetch fuel (offset + entries.length)
              (acc ++ entries.filterMap id)
              (updateFirstDate fd (entries.filterMap id))
              (reqs ++ [⟨offset, searchLimit⟩])) ∧
    (∀ fetch : SearchRequest → FetchResult,
        (∃ k, shortPageAt fetch (crawlOffsetFrom fetch 0 k) = true) →
        ∃ fuel out, searchMessages fetch fuel = some out) := by
  refine ⟨?_, ?_, ?_, ?_⟩
  · intro fetch fuel res reqs h
    exact go_reqs_limit fetch fuel 0 [] none [] (by simp) res reqs h
  · intro fetch fuel offset acc fd reqs entries hf hshort
    exact go_short_ends fetch fuel offset acc fd reqs entries hf hshort
  · intro fetch fuel offset acc fd reqs entries hf hge
    exact go_full_continues fetch fuel offset acc fd reqs entries hf hge
  · intro fetch h
    obtain ⟨k, hk⟩ := h
    obtain ⟨out, hout⟩ := go_term fetch k 0 [] none [] hk
    exact ⟨k + 1, out, hout⟩

/-- Witness for C6: a channel serving one short page terminates (both the
single-step form and the termination form). -/
theorem searchMessages_pagination_witness :
    (∃ out, searchMessagesGo chOk (0 + 1) 0 [] none [] = some out) ∧
    (∃ fuel out, searchMessages chOk fuel = some out) :=
  ⟨searchMessages_pagination.2.1 chOk 0 0 [] none []
      [some ⟨500, 9, "late"⟩] rfl (by decide),
    searchMessages_pagination.2.2.2 chOk ⟨0, by decide⟩⟩

/-- Counterexample for C8: channel `chErr` serves a full page of 100
entries (among them the message (1, 5, "early")) and then fails on the next
page fetch; its pagination returns the error with no messages — the
partially collected page is discarded — and the whole crawl over
`[chErr, chOk]` yields only the other channel's message. -/
theorem runCrawl_discards_partial_on_error :
    chErr ⟨0, searchLimit⟩ = .page fullPage ∧
    (some (⟨1, 5, "early"⟩ : CrawlMsg)) ∈ fullPage ∧
    searchMessages chErr 2
      = some (.error "rpc error", [⟨0, searchLimit⟩, ⟨searchLimit, searchLimit⟩]) ∧
    runCrawl 2 [chErr, chOk] = some [⟨500, 9, "late"⟩] :=
  ⟨rfl, by decide, rfl, rfl⟩

/-- Claim C8 as amended: a page-fetch error inside a channel's pagination
makes that channel contribute nothing (its partially fetched messages are
discarded with the error), while the crawl proceeds and the results of the
remaining channels are exactly preserved. -/
theorem runCrawl_error_skips_channel (fuel : Nat)
    (ch : SearchRequest → FetchResult)
    (rest : List (SearchRequest → FetchResult)) (e : String)
    (reqs : List SearchRequest)
    (h : searchMessages ch fuel = some (.error e, reqs)) :
    runCrawl fuel (ch :: rest) = runCrawl fuel rest := by
  simp [runCrawl, h]

/-- Witness for C8 (amended): the erroring channel `chErr` is skipped and
the crawl continues with `chOk`. -/
theorem runCrawl_error_skips_channel_witness :
    runCrawl 2 [chErr, chOk] = runCrawl 2 [chOk] :=
  runCrawl_error_skips_channel 2 chErr [chOk] "rpc error"
    [⟨0, searchLimit⟩, ⟨searchLimit, searchLimit⟩] rfl

end Teleslurp
